import Mathlib

/-!
Shallow embedding of the core of `souenzzo/cost-model`:

* `pkg/prom/query.go` — response classification for instant and range
  Prometheus queries (`warningsFrom`, `query`, `queryRange`, `QuerySync`,
  `QueryRangeSync`, and the instant-query timestamp selection of `RawQuery`).
* `pkg/util/retry/retry.go` — the cancellable jittered-backoff `Retry`
  primitive.

External collaborators (the HTTP transport, the generic JSON decoder
`pkg/util/json`, the typed result decoder `NewQueryResults`, and the process
configuration `env.GetPrometheusQueryOffset` / `AllocationContextName`) are
not part of the sources; they appear either as explicit parameters or as
definitions marked `Modelled from the spec:`.

Numeric conventions: Go `time.Duration` values are modelled as mathematical
integers (nanoseconds).  Every division and modulus that the retry loop
performs is applied to nonnegative operands bounded by a positive modulus,
where Lean's Euclidean `/` and `%` on `Int` agree with Go's truncated
division, so `/` and `%` are used directly.
-/

namespace CostModel

/-! ## Generic JSON values (`pkg/util/json`, modelled)

`Modelled from the spec:` the repository's `pkg/util/json` package (absent
from the sources) decodes a response body into a generic JSON value
("decode the body as generic JSON").  The spec requires that a `warnings`
string-array field be extractable from such a value, so values carry a
dedicated string-array constructor that the dynamic-type test in
`warningsFrom` can recognise. `null` plays the role of Go's nil interface
value; numeric payloads are kept as their literal text since nothing in the
core inspects them. -/
inductive GoJson where
  | null : GoJson
  | bool (b : Bool) : GoJson
  | num (lit : String) : GoJson
  | str (s : String) : GoJson
  | strArr (ws : List String) : GoJson
  | arr (elems : List GoJson) : GoJson
  | obj (fields : List (String × GoJson)) : GoJson

/-- Association-list lookup for `GoJson.obj` fields (Go map indexing; a
decoded JSON object never holds duplicate keys, so first-match lookup is
exact). -/
def lookupField (fields : List (String × GoJson)) (key : String) : Option GoJson :=
  match fields with
  | [] => none
  | (k, v) :: rest => if k = key then some v else lookupField rest key

/-- Bool test: does `sub` occur as a contiguous run inside `l`?  (The list
form of Go's `strings.Contains`.) -/
def charsContain (sub : List Char) : List Char → Bool
  | [] => sub.isEmpty
  | c :: rest => sub.isPrefixOf (c :: rest) || charsContain sub rest

/-- `Modelled from the spec:` the store-partial-failure warning pattern
(`IsNoStoreAPIWarning`, defined outside the sources).  The spec describes it
as a free-text pattern match against backend-supplied warning strings,
marking responses where a federated storage backend skipped some data
stores; the concrete marker text is not fixed by the spec, so a
representative marker is used — the claims only depend on membership in the
pattern. -/
def IsNoStoreAPIWarning (w : String) : Bool :=
  charsContain "No StoreAPIs matched".toList w.toList

/-- `prometheus.Warnings` is a string slice; the nil slice is the empty
list. Embeds `warningsFrom` (query.go lines 376–388): the value must be a
JSON object, must carry a `warnings` property, and that property must be a
string array; otherwise the nil (empty) warning list is returned. -/
def warningsFrom (result : GoJson) : List String :=
  match result with
  | .obj fields =>
    match lookupField fields "warnings" with
    | some (.strArr w) => w
    | _ => []
  | _ => []

/-- An opaque decoded result record.  The spec treats result-record
internals as opaque to this core, so any inhabited carrier serves. -/
structure QueryResult where
  tag : String
deriving DecidableEq

/-- The value produced by the external typed decoder `NewQueryResults`
(query.go uses only its `Results` and `Error` fields).  `Results` is a Go
slice and may itself be nil. -/
structure QueryResults where
  Results : Option (List QueryResult)
  Error : Option String
deriving DecidableEq

/-- The `(interface{}, prometheus.Warnings, error)` triple returned by the
unexported `query` / `queryRange` methods. -/
structure QueryOutcome where
  raw : Option GoJson
  warnings : List String
  err : Option String

/-- The `([]*QueryResult, prometheus.Warnings, error)` triple returned by
`QuerySync` / `QueryRangeSync`.  `results = none` is Go's nil slice. -/
structure SyncResult where
  results : Option (List QueryResult)
  warnings : List String
  err : Option String

/-- Embeds the unexported `query` method (query.go lines 224–249).
`unmarshal` stands for `json.Unmarshal` into a generic value (`.error e`
being a decode failure), and `rawQueryResult` for the outcome of the
transport call `RawQuery` (`.ok body` on 2xx, `.error e` otherwise) — both
live outside the sources.  On a decoded body the warnings are extracted and
scanned in order; the first store-partial-failure warning aborts the call
with a hard error carrying the warning, body and query text, and otherwise
the decoded value and the soft warnings are returned with a nil error. -/
def query (unmarshal : String → Except String GoJson) (q : String)
    (rawQueryResult : Except String String) : QueryOutcome :=
  match rawQueryResult with
  | .error e => ⟨none, [], some e⟩
  | .ok body =>
    match unmarshal body with
    | .error e => ⟨none, [], some ("Unmarshal Error: " ++ e ++ "\nQuery: " ++ q)⟩
    | .ok toReturn =>
      let warnings := warningsFrom toReturn
      match warnings.find? (fun w => IsNoStoreAPIWarning w) with
      | some w =>
        ⟨none, warnings, some ("Error: " ++ w ++ ", Body: " ++ body ++ ", Query: " ++ q)⟩
      | none => ⟨some toReturn, warnings, none⟩

/-- Embeds the unexported `queryRange` method (query.go lines 348–373); the
classification logic is a verbatim duplicate of `query` in the source (the
range-specific parameters only shape the outgoing request, which is part of
the external transport here). -/
def queryRange (unmarshal : String → Except String GoJson) (q : String)
    (rawQueryResult : Except String String) : QueryOutcome :=
  match rawQueryResult with
  | .error e => ⟨none, [], some e⟩
  | .ok body =>
    match unmarshal body with
    | .error e => ⟨none, [], some ("Unmarshal Error: " ++ e ++ "\nQuery: " ++ q)⟩
    | .ok toReturn =>
      let warnings := warningsFrom toReturn
      match warnings.find? (fun w => IsNoStoreAPIWarning w) with
      | some w =>
        ⟨none, warnings, some ("Error: " ++ w ++ ", Body: " ++ body ++ ", Query: " ++ q)⟩
      | none => ⟨some toReturn, warnings, none⟩

/-- Embeds `QuerySync` (query.go lines 136–148).  `nqr` stands for the
external typed decoder `NewQueryResults(query, raw)`; it is applied exactly
as in the source: only after `query` reports no error, and its own error
forces a nil result slice. -/
def QuerySync (unmarshal : String → Except String GoJson)
    (nqr : String → Option GoJson → QueryResults) (q : String)
    (rawQueryResult : Except String String) : SyncResult :=
  let o := query unmarshal q rawQueryResult
  match o.err with
  | some e => ⟨none, o.warnings, some e⟩
  | none =>
    let results := nqr q o.raw
    match results.Error with
    | some e => ⟨none, o.warnings, some e⟩
    | none => ⟨results.Results, o.warnings, none⟩

/-- Embeds `QueryRangeSync` (query.go lines 267–279); identical control flow
over `queryRange`.  `start`, `end`, `step` parameters only shape the
outgoing request built by `RawQueryRange` (external transport), so they do
not influence classification. -/
def QueryRangeSync (unmarshal : String → Except String GoJson)
    (nqr : String → Option GoJson → QueryResults) (q : String)
    (rawQueryResult : Except String String) : SyncResult :=
  let o := queryRange unmarshal q rawQueryResult
  match o.err with
  | some e => ⟨none, o.warnings, some e⟩
  | none =>
    let results := nqr q o.raw
    match results.Error with
    | some e => ⟨none, o.warnings, some e⟩
    | none => ⟨results.Results, o.warnings, none⟩

/-- `Modelled from the spec:` the distinguished allocation-integrity context
name (`AllocationContextName`, declared outside the sources).  The spec
fixes only that exactly one designated name suppresses the instant-query
offset; the concrete literal is representative. -/
def AllocationContextName : String := "allocation"

/-- The timestamp attached as the `time` parameter of an instant query,
embedding the conditional of `RawQuery` (query.go lines 180–187): when the
process-wide offset is non-zero and the context name differs from
`AllocationContextName`, the timestamp is `now` minus the offset, otherwise
it is `now`.  Instants and the offset are in nanoseconds. -/
def rawQueryTimeParam (promQueryOffset : Int) (name : String) (now : Int) : Int :=
  if promQueryOffset ≠ 0 ∧ name ≠ AllocationContextName then
    now - promQueryOffset
  else
    now

/-! ## The retry executor (`pkg/util/retry/retry.go`) -/

/-- A Go runtime panic value (carries the panic message). -/
structure GoPanic where
  message : String
deriving DecidableEq

/-- The sentinel message of `RetryCancellationErr` (retry.go line 11). -/
def RetryCancellationErr : String := "RetryCancellationErr"

/-- Embeds `IsRetryCancelledError` (retry.go lines 14–16): non-nil and equal
to the sentinel message. -/
def IsRetryCancelledError (err : Option String) : Bool :=
  match err with
  | none => false
  | some s => s = RetryCancellationErr

/-- `math/rand.Int63n(n)` driven by one entropy sample `v`: panics when
`n ≤ 0` ("invalid argument to Int63n"), otherwise yields a value in
`[0, n)`; every such value is realised by some `v`, so quantifying over the
entropy stream quantifies over all random outcomes. -/
def int63n (v : Nat) (n : Int) : Except GoPanic Int :=
  if n ≤ 0 then .error ⟨"invalid argument to Int63n"⟩
  else .ok ((v : Int) % n)

/-- The observable outcome of a terminating `Retry` call: the returned
`(result, error)` pair, the number of times the operation was invoked, and
the sleeps performed, in order. -/
structure RetryOutcome (α : Type) where
  result : Option α
  err : Option String
  calls : Nat
  sleeps : List Int
deriving DecidableEq

/-- The loop of `Retry` (retry.go lines 23–41).  `r` is the loop counter
(`for r := attempts; r > 0; r--`), `k` counts invocations made so far and
indexes the operation (`f k` is the `k`-th call of `f`), the cancellation
check (`done k` is whether `ctx.Done()` is observed signaled at the `k`-th
boundary), and the entropy stream.  `d` is the current delay, `result`/`err`
the Go loop variables, `sleeps` the reversed log of sleeps so far.  Each
iteration: check cancellation (returning `(nil, RetryCancellationErr)` if
signaled), invoke the operation, stop on a nil error, otherwise sleep `d`,
draw the jitter with `rand.Int63n(int64(d))` — a Go panic when `d ≤ 0` —
and grow `d` by `jitter / 2`.  Note the sleep and the jitter draw also
happen after the final failed attempt, exactly as in the source. -/
def retryLoop {α : Type} (f : Nat → Option α × Option String) (done : Nat → Bool)
    (entropy : Nat → Nat) :
    Nat → Nat → Int → Option α → Option String → List Int →
      Except GoPanic (RetryOutcome α)
  | 0, k, _, result, err, sleeps => .ok ⟨result, err, k, sleeps.reverse⟩
  | r + 1, k, d, _, _, sleeps =>
    if done k then .ok ⟨none, some RetryCancellationErr, k, sleeps.reverse⟩
    else
      match f k with
      | (res, none) => .ok ⟨res, none, k + 1, sleeps.reverse⟩
      | (res, some e) =>
        match int63n (entropy k) d with
        | .error p => .error p
        | .ok j => retryLoop f done entropy r (k + 1) (d + j / 2) res (some e) (d :: sleeps)

/-- Embeds `Retry` (retry.go lines 19–44).  The operation, the cancellation
signal and the random source are impure in Go; they are modelled as streams
indexed by invocation count.  `attempts` is the `uint` attempt budget and
`delay` the initial delay.  The Go loop variables `result` and `err` start
at their zero values `(nil, nil)`. -/
def Retry {α : Type} (f : Nat → Option α × Option String) (done : Nat → Bool)
    (entropy : Nat → Nat) (attempts : Nat) (delay : Int) :
    Except GoPanic (RetryOutcome α) :=
  retryLoop f done entropy attempts 0 delay none none []

/-- The delay held by the loop at the start of its `i`-th iteration, when
iterations `k, k+1, …` all fail: `delaySeqFrom entropy k d 0 = d` and each
failed iteration grows the delay by `(entropy j % d) / 2` (its jitter draw
halved), mirroring `d = d + jitter/2`. -/
def delaySeqFrom (entropy : Nat → Nat) (k : Nat) (d : Int) : Nat → Int
  | 0 => d
  | i + 1 => delaySeqFrom entropy (k + 1) (d + ((entropy k : Int) % d) / 2) i

/-- The per-iteration delay sequence of one `Retry` invocation whose
attempts keep failing: `delaySeq entropy delay i` is the delay slept after
the `i`-th failed attempt (0-indexed). -/
def delaySeq (entropy : Nat → Nat) (delay : Int) (i : Nat) : Int :=
  delaySeqFrom entropy 0 delay i

/-- The list of the first `i` sleeps of a run whose attempts keep failing,
in order. -/
def sleepsUpTo (entropy : Nat → Nat) (k : Nat) (d : Int) : Nat → List Int
  | 0 => []
  | i + 1 => d :: sleepsUpTo entropy (k + 1) (d + ((entropy k : Int) % d) / 2) i

/-! ## Helper lemmas about the retry loop -/

/-- Half of a jitter draw against a positive delay is nonnegative. -/
theorem jitterHalf_nonneg (v : Nat) {d : Int} (hd : 0 < d) : 0 ≤ ((v : Int) % d) / 2 := by
  have h1 : 0 ≤ (v : Int) % d := Int.emod_nonneg _ (ne_of_gt hd)
  positivity

/-- A positive delay stays positive across one jitter update. -/
theorem delay_step_pos (v : Nat) {d : Int} (hd : 0 < d) : 0 < d + ((v : Int) % d) / 2 := by
  have h := jitterHalf_nonneg v hd
  omega

/-- A positive initial delay keeps the whole delay sequence positive. -/
theorem delaySeqFrom_pos (entropy : Nat → Nat) :
    ∀ (i k : Nat) (d : Int), 0 < d → 0 < delaySeqFrom entropy k d i := by
  intro i
  induction i with
  | zero => intro k d hd; simpa [delaySeqFrom] using hd
  | succ i ih =>
    intro k d hd
    rw [delaySeqFrom]
    exact ih (k + 1) _ (delay_step_pos (entropy k) hd)

/-- Unfolding the delay sequence at the far end: the next delay is the
current one plus half of that iteration's jitter draw. -/
theorem delaySeqFrom_succ_right (entropy : Nat → Nat) :
    ∀ (i k : Nat) (d : Int),
      delaySeqFrom entropy k d (i + 1) =
        delaySeqFrom entropy k d i +
          ((entropy (k + i) : Int) % delaySeqFrom entropy k d i) / 2 := by
  intro i
  induction i with
  | zero => intro k d; simp [delaySeqFrom]
  | succ i ih =>
    intro k d
    have h1 : delaySeqFrom entropy k d (i + 1 + 1)
        = delaySeqFrom entropy (k + 1) (d + ((entropy k : Int) % d) / 2) (i + 1) := rfl
    have h2 : delaySeqFrom entropy k d (i + 1)
        = delaySeqFrom entropy (k + 1) (d + ((entropy k : Int) % d) / 2) i := rfl
    rw [h1, ih (k + 1), ← h2]
    have h3 : k + 1 + i = k + (i + 1) := by omega
    rw [h3]

/-- With a positive current delay the loop can never reach the
`rand.Int63n` panic: it always returns normally. -/
theorem retryLoop_no_panic {α : Type} (f : Nat → Option α × Option String)
    (done : Nat → Bool) (entropy : Nat → Nat) :
    ∀ (r k : Nat) (d : Int) (res : Option α) (err : Option String) (sleeps : List Int),
      0 < d → ∃ o, retryLoop f done entropy r k d res err sleeps = .ok o := by
  intro r
  induction r with
  | zero => intro k d res err sleeps _; exact ⟨_, rfl⟩
  | succ r ih =>
    intro k d res err sleeps hd
    rw [retryLoop]
    by_cases hdk : done k = true
    · exact ⟨⟨none, some RetryCancellationErr, k, sleeps.reverse⟩, by simp [hdk]⟩
    · rcases hf : f k with ⟨a, e⟩
      cases e with
      | none => exact ⟨⟨a, none, k + 1, sleeps.reverse⟩, by simp [hdk, hf]⟩
      | some e =>
        obtain ⟨o, ho⟩ := ih (k + 1) (d + ((entropy k : Int) % d) / 2) a (some e)
          (d :: sleeps) (delay_step_pos (entropy k) hd)
        refine ⟨o, ?_⟩
        simp only [hdk, if_false, Bool.false_eq_true, hf, int63n,
          if_neg (not_le.mpr hd)]
        exact ho

/-- Running the loop across `i` consecutive iterations that all fail (no
cancellation observed, every attempt returns a non-nil error): the loop
counter drops by `i`, the invocation index advances by `i`, the delay
follows `delaySeqFrom`, the carried `(result, err)` pair is the one of the
last of those attempts, and the `i` delays are slept in order. -/
theorem retryLoop_fail_steps {α : Type} (f : Nat → Option α × Option String)
    (done : Nat → Bool) (entropy : Nat → Nat) :
    ∀ (i r k : Nat) (d : Int) (res : Option α) (err : Option String) (sleeps : List Int),
      i ≤ r → (i = 0 ∨ 0 < d) →
      (∀ j, j < i → done (k + j) = false) →
      (∀ j, j < i → (f (k + j)).2 ≠ none) →
      retryLoop f done entropy r k d res err sleeps =
        retryLoop f done entropy (r - i) (k + i) (delaySeqFrom entropy k d i)
          (if i = 0 then res else (f (k + i - 1)).1)
          (if i = 0 then err else (f (k + i - 1)).2)
          ((sleepsUpTo entropy k d i).reverse ++ sleeps) := by
  intro i
  induction i with
  | zero =>
    intro r k d res err sleeps _ _ _ _
    simp [delaySeqFrom, sleepsUpTo]
  | succ i ih =>
    intro r k d res err sleeps hir hd hdone hfail
    have hdpos : 0 < d := by
      rcases hd with h | h
      · exact absurd h (by omega)
      · exact h
    obtain ⟨r', rfl⟩ : ∃ r', r = r' + 1 := ⟨r - 1, by omega⟩
    have hd0 : done k = false := by simpa using hdone 0 (by omega)
    obtain ⟨e, he⟩ := Option.ne_none_iff_exists'.mp (by simpa using hfail 0 (by omega))
    have hfk : f k = ((f k).1, some e) := by
      conv_lhs => rw [← Prod.mk.eta (p := f k)]
      rw [he]
    have hstep : retryLoop f done entropy (r' + 1) k d res err sleeps =
        retryLoop f done entropy r' (k + 1) (d + ((entropy k : Int) % d) / 2)
          (f k).1 (some e) (d :: sleeps) := by
      rw [retryLoop, hfk]
      simp only [hd0, Bool.false_eq_true, if_false, int63n,
        if_neg (not_le.mpr hdpos)]
    rw [hstep]
    rw [ih r' (k + 1) (d + ((entropy k : Int) % d) / 2) (f k).1 (some e) (d :: sleeps)
      (by omega) (Or.inr (delay_step_pos (entropy k) hdpos))
      (fun j hj => by
        have := hdone (j + 1) (by omega)
        simpa [Nat.add_assoc, Nat.add_comm 1 j] using this)
      (fun j hj => by
        have := hfail (j + 1) (by omega)
        simpa [Nat.add_assoc, Nat.add_comm 1 j] using this)]
    have hsub : r' - i = r' + 1 - (i + 1) := by omega
    have hadd : k + 1 + i = k + (i + 1) := by omega
    have hd1 : delaySeqFrom entropy (k + 1) (d + ((entropy k : Int) % d) / 2) i
        = delaySeqFrom entropy k d (i + 1) := rfl
    have hs1 : sleepsUpTo entropy k d (i + 1)
        = d :: sleepsUpTo entropy (k + 1) (d + ((entropy k : Int) % d) / 2) i := rfl
    rw [hsub, hadd, hd1, hs1]
    have hres : (if i = 0 then (f k).1 else (f (k + (i + 1) - 1)).1)
        = (f (k + (i + 1) - 1)).1 := by
      cases i with
      | zero => simp
      | succ m => simp
    have herr : (if i = 0 then some e else (f (k + (i + 1) - 1)).2)
        = (f (k + (i + 1) - 1)).2 := by
      cases i with
      | zero => simp [he]
      | succ m => simp
    rw [hres, herr]
    simp [List.reverse_cons, List.append_assoc]

/-! ## Claims about the query pipeline -/

/-- C1: whenever the decoded response body carries a warning matching the
store-partial-failure (NoStoreAPI) pattern, `QuerySync` returns a nil result
slice and a non-nil error — independently of what the typed decoder `nqr`
would have produced, so even a syntactically valid result payload is
discarded. -/
theorem querySync_noStoreAPI_escalates
    (unmarshal : String → Except String GoJson)
    (nqr : String → Option GoJson → QueryResults) (q body : String) (J : GoJson)
    (hu : unmarshal body = .ok J)
    (hw : (warningsFrom J).any IsNoStoreAPIWarning = true) :
    (QuerySync unmarshal nqr q (.ok body)).results = none ∧
    (QuerySync unmarshal nqr q (.ok body)).err ≠ none := by
  obtain ⟨w, hwmem, hwp⟩ := List.any_eq_true.mp hw
  have hfind : ∃ w', (warningsFrom J).find? (fun w => IsNoStoreAPIWarning w) = some w' := by
    rw [← Option.isSome_iff_exists, List.find?_isSome]
    exact ⟨w, hwmem, hwp⟩
  obtain ⟨w', hfind⟩ := hfind
  simp [QuerySync, query, hu, hfind]

/-- Witness for C1 at the spec's mock response: a success payload whose
warnings contain the NoStoreAPI marker, with a decoder that would happily
return a result record. -/
theorem querySync_noStoreAPI_escalates_witness :
    (QuerySync
        (fun _ => .ok (GoJson.obj [("status", GoJson.str "success"),
          ("data", GoJson.obj []),
          ("warnings", GoJson.strArr ["No StoreAPIs matched for this query"])]))
        (fun _ _ => ⟨some [⟨"row"⟩], none⟩) "up" (.ok "BODY")).results = none ∧
    (QuerySync
        (fun _ => .ok (GoJson.obj [("status", GoJson.str "success"),
          ("data", GoJson.obj []),
          ("warnings", GoJson.strArr ["No StoreAPIs matched for this query"])]))
        (fun _ _ => ⟨some [⟨"row"⟩], none⟩) "up" (.ok "BODY")).err ≠ none :=
  querySync_noStoreAPI_escalates _ _ "up" "BODY"
    (GoJson.obj [("status", GoJson.str "success"),
      ("data", GoJson.obj []),
      ("warnings", GoJson.strArr ["No StoreAPIs matched for this query"])])
    rfl (by decide)

/-- C2: a response whose decoded warnings are exactly the single soft
warning `"partial response"` (which does not match the store-partial-failure
pattern) passes through `QuerySync`: the decoder's results are returned
non-nil, exactly that one warning is returned, and the error is nil. -/
theorem querySync_soft_warning_passthrough
    (unmarshal : String → Except String GoJson)
    (nqr : String → Option GoJson → QueryResults) (q body : String) (J : GoJson)
    (rs : List QueryResult)
    (hu : unmarshal body = .ok J)
    (hw : warningsFrom J = ["partial response"])
    (hdec : nqr q (some J) = ⟨some rs, none⟩) :
    (QuerySync unmarshal nqr q (.ok body)).results = some rs ∧
    (QuerySync unmarshal nqr q (.ok body)).warnings = ["partial response"] ∧
    (QuerySync unmarshal nqr q (.ok body)).err = none := by
  have hfind : (["partial response"] : List String).find?
      (fun w => IsNoStoreAPIWarning w) = none := by decide
  simp [QuerySync, query, hu, hw, hfind, hdec]

/-- Witness for C2 at the spec's mock response
`{"status":"success","data":{...},"warnings":["partial response"]}`. -/
theorem querySync_soft_warning_passthrough_witness :
    (QuerySync
        (fun _ => .ok (GoJson.obj [("status", GoJson.str "success"),
          ("data", GoJson.obj []),
          ("warnings", GoJson.strArr ["partial response"])]))
        (fun _ _ => ⟨some [⟨"row"⟩], none⟩) "up" (.ok "BODY")).results = some [⟨"row"⟩] ∧
    (QuerySync
        (fun _ => .ok (GoJson.obj [("status", GoJson.str "success"),
          ("data", GoJson.obj []),
          ("warnings", GoJson.strArr ["partial response"])]))
        (fun _ _ => ⟨some [⟨"row"⟩], none⟩) "up" (.ok "BODY")).warnings
      = ["partial response"] ∧
    (QuerySync
        (fun _ => .ok (GoJson.obj [("status", GoJson.str "success"),
          ("data", GoJson.obj []),
          ("warnings", GoJson.strArr ["partial response"])]))
        (fun _ _ => ⟨some [⟨"row"⟩], none⟩) "up" (.ok "BODY")).err = none :=
  querySync_soft_warning_passthrough _ _ "up" "BODY"
    (GoJson.obj [("status", GoJson.str "success"),
      ("data", GoJson.obj []),
      ("warnings", GoJson.strArr ["partial response"])])
    [⟨"row"⟩] rfl (by decide) rfl

/-- C3: for every query text, every transport outcome, every generic
decoder and every typed decoder, neither `QuerySync` nor `QueryRangeSync`
ever pairs a non-nil result slice with a non-nil error: at least one of the
two is nil. -/
theorem sync_no_result_with_error
    (unmarshal : String → Except String GoJson)
    (nqr : String → Option GoJson → QueryResults) (q : String)
    (rawQueryResult : Except String String) :
    ((QuerySync unmarshal nqr q rawQueryResult).results = none ∨
      (QuerySync unmarshal nqr q rawQueryResult).err = none) ∧
    ((QueryRangeSync unmarshal nqr q rawQueryResult).results = none ∨
      (QueryRangeSync unmarshal nqr q rawQueryResult).err = none) := by
  constructor
  · rcases h : (query unmarshal q rawQueryResult).err with _ | e
    · rcases h2 : (nqr q (query unmarshal q rawQueryResult).raw).Error with _ | e2
      · right; simp [QuerySync, h, h2]
      · left; simp [QuerySync, h, h2]
    · left; simp [QuerySync, h]
  · rcases h : (queryRange unmarshal q rawQueryResult).err with _ | e
    · rcases h2 : (nqr q (queryRange unmarshal q rawQueryResult).raw).Error with _ | e2
      · right; simp [QueryRangeSync, h, h2]
      · left; simp [QueryRangeSync, h, h2]
    · left; simp [QueryRangeSync, h]

/-- C4: the instant-query `time` parameter is now-minus-offset exactly when
the configured offset is non-zero and the context name differs from the
allocation-integrity name, and plain now otherwise. -/
theorem rawQuery_time_offset (promQueryOffset : Int) (name : String) (now : Int) :
    (promQueryOffset ≠ 0 → name ≠ AllocationContextName →
      rawQueryTimeParam promQueryOffset name now = now - promQueryOffset) ∧
    (promQueryOffset = 0 ∨ name = AllocationContextName →
      rawQueryTimeParam promQueryOffset name now = now) := by
  constructor
  · intro h1 h2
    simp [rawQueryTimeParam, h1, h2]
  · intro h
    rcases h with h | h
    · simp [rawQueryTimeParam, h]
    · simp [rawQueryTimeParam, h]

/-- Witness for C4: a non-zero offset on an ordinary context shifts the
timestamp; a zero offset, or the allocation context, leaves it at now. -/
theorem rawQuery_time_offset_witness :
    rawQueryTimeParam 5 "cluster" 100 = 100 - 5 ∧
    rawQueryTimeParam 0 "cluster" 100 = 100 ∧
    rawQueryTimeParam 7 AllocationContextName 100 = 100 :=
  ⟨(rawQuery_time_offset 5 "cluster" 100).1 (by decide) (by decide),
   (rawQuery_time_offset 0 "cluster" 100).2 (Or.inl rfl),
   (rawQuery_time_offset 7 AllocationContextName 100).2 (Or.inr rfl)⟩

/-! ## Claims about the retry executor -/

/-- C5 counterexample: two attempts, an operation failing on attempt 1 and
succeeding on attempt 2, no cancellation — but a zero initial delay.  After
the first failed attempt the jitter draw `rand.Int63n(int64(0))` panics, so
`Retry` does not invoke the operation a second time and does not return the
attempt-2 result: the claim fails without a positivity assumption on the
delay. -/
theorem retry_success_claim_counterexample :
    Retry (fun i => if i = 0 then ((none : Option Nat), some "transient") else (some 7, none))
        (fun _ => false) (fun _ => 0) 2 0 = .error ⟨"invalid argument to Int63n"⟩ ∧
    ((if (0 : Nat) = 0 then ((none : Option Nat), some "transient") else (some 7, none)).2
        = some "transient") ∧
    ((if (1 : Nat) = 0 then ((none : Option Nat), some "transient") else (some 7, none)).2
        = none) :=
  ⟨rfl, rfl, rfl⟩

/-- C5 (amended with a strictly positive initial delay): if the operation
errors on attempts `1..k-1` and returns a nil error on attempt
`k ≤ maxAttempts`, with no cancellation signaled before any of those
attempts, then `Retry` invokes the operation exactly `k` times, sleeps the
first `k-1` delays of the backoff sequence, and returns the attempt-`k`
result with a nil error. -/
theorem retry_success_pos_delay {α : Type} (f : Nat → Option α × Option String)
    (done : Nat → Bool) (entropy : Nat → Nat) (attempts k : Nat) (delay : Int)
    (hδ : 0 < delay) (hk1 : 1 ≤ k) (hka : k ≤ attempts)
    (hfail : ∀ j, j < k - 1 → (f j).2 ≠ none)
    (hsucc : (f (k - 1)).2 = none)
    (hnc : ∀ j, j < k → done j = false) :
    Retry f done entropy attempts delay =
      .ok ⟨(f (k - 1)).1, none, k, sleepsUpTo entropy 0 delay (k - 1)⟩ := by
  rw [Retry]
  rw [retryLoop_fail_steps f done entropy (k - 1) attempts 0 delay none none []
    (by omega) (Or.inr hδ)
    (fun j hj => by simpa using hnc j (by omega))
    (fun j hj => by simpa using hfail j hj)]
  obtain ⟨m, hm⟩ : ∃ m, attempts - (k - 1) = m + 1 := ⟨attempts - (k - 1) - 1, by omega⟩
  rw [hm]
  have hd1 : done (k - 1) = false := hnc (k - 1) (by omega)
  have hfk : f (0 + (k - 1)) = ((f (k - 1)).1, none) := by
    simp only [Nat.zero_add]
    conv_lhs => rw [← Prod.mk.eta (p := f (k - 1))]
    rw [hsucc]
  rw [retryLoop, hfk]
  simp [hd1, show k - 1 + 1 = k from by omega]

/-- Witness for the amended C5: three attempts available, failure then
success, delay 4; the operation runs twice, one sleep of 4 happens, and the
success value is returned. -/
theorem retry_success_pos_delay_witness :
    Retry (fun i => if i = 0 then ((none : Option Nat), some "transient") else (some 7, none))
      (fun _ => false) (fun _ => 5) 3 4 = .ok ⟨some 7, none, 2, [4]⟩ := by
  have h := retry_success_pos_delay
    (fun i => if i = 0 then ((none : Option Nat), some "transient") else (some 7, none))
    (fun _ => false) (fun _ => 5) 3 2 4 (by norm_num) (by norm_num) (by norm_num)
    (fun j hj => by
      have hj0 : j = 0 := by omega
      subst hj0
      simp)
    (by simp)
    (fun j hj => rfl)
  simpa [sleepsUpTo] using h

/-- C6: at every loop boundary the cancellation signal is consulted before
the operation is invoked.  If the run reaches boundary `i` (all earlier
boundaries unsignaled, all earlier attempts failing, budget not exhausted,
and — for boundaries after a sleep — a positive delay so the jitter draw is
defined) and the signal is observed there, `Retry` returns nil with the
distinguished cancellation error, having invoked the operation exactly `i`
times and slept exactly `i` times.  At `i = 0` this is the spec's first
case: signaled before the first attempt, the operation is never invoked, no
sleep happens, and the cancellation error is returned. -/
theorem retry_cancellation_boundary {α : Type} (f : Nat → Option α × Option String)
    (done : Nat → Bool) (entropy : Nat → Nat) (attempts i : Nat) (delay : Int)
    (hi : i < attempts)
    (hd : i = 0 ∨ 0 < delay)
    (hprev : ∀ j, j < i → done j = false)
    (hfail : ∀ j, j < i → (f j).2 ≠ none)
    (hdone : done i = true) :
    Retry f done entropy attempts delay =
      .ok ⟨none, some RetryCancellationErr, i, sleepsUpTo entropy 0 delay i⟩ := by
  rw [Retry]
  rw [retryLoop_fail_steps f done entropy i attempts 0 delay none none []
    (by omega) hd
    (fun j hj => by simpa using hprev j hj)
    (fun j hj => by simpa using hfail j hj)]
  obtain ⟨m, hm⟩ : ∃ m, attempts - i = m + 1 := ⟨attempts - i - 1, by omega⟩
  rw [hm, retryLoop]
  simp [hdone]

/-- Witness for C6: signal observed at boundary 0 (before the first
attempt) on one instance, exactly matching "never invokes, never sleeps,
returns the cancellation error". -/
theorem retry_cancellation_boundary_witness :
    Retry (fun _ => ((none : Option Nat), some "unseen")) (fun _ => true)
      (fun _ => 0) 2 7 = .ok ⟨none, some RetryCancellationErr, 0, []⟩ := by
  have h := retry_cancellation_boundary (fun _ => ((none : Option Nat), some "unseen"))
    (fun _ => true) (fun _ => 0) 2 0 7 (by norm_num) (Or.inl rfl)
    (fun j hj => absurd hj (by omega))
    (fun j hj => absurd hj (by omega))
    rfl
  simpa [sleepsUpTo] using h

/-- C7 counterexample: a single attempt that fails, no cancellation, zero
delay.  The source sleeps and draws a jitter even after the final failed
attempt, so `rand.Int63n(int64(0))` panics and `Retry` does not return the
final `(result, error)` pair: the exhaustion part of the claim fails
without a positivity assumption on the delay. -/
theorem retry_exhaustion_claim_counterexample :
    Retry (fun _ => ((none : Option Nat), some "always")) (fun _ => false) (fun _ => 0) 1 0
        = .error ⟨"invalid argument to Int63n"⟩ ∧
    ((none : Option Nat), some "always").2 ≠ none :=
  ⟨rfl, by simp⟩

/-- C7 (amended with a strictly positive initial delay for the exhaustion
part): when all `maxAttempts ≥ 1` attempts return an error and no
cancellation is observed, `Retry` returns exactly the final attempt's
`(result, error)` pair — no synthetic exhaustion error — after sleeping
once per attempt; and with `maxAttempts = 0` the operation is never
attempted and the zero-value pair `(nil, nil)` is returned unconditionally. -/
theorem retry_exhaustion_last_pair {α : Type} (f : Nat → Option α × Option String)
    (done : Nat → Bool) (entropy : Nat → Nat) (attempts : Nat) (delay : Int) :
    (0 < delay → 1 ≤ attempts →
      (∀ j, j < attempts → (f j).2 ≠ none) →
      (∀ j, j < attempts → done j = false) →
      Retry f done entropy attempts delay =
        .ok ⟨(f (attempts - 1)).1, (f (attempts - 1)).2, attempts,
          sleepsUpTo entropy 0 delay attempts⟩) ∧
    Retry f done entropy 0 delay = .ok ⟨none, none, 0, []⟩ := by
  constructor
  · intro hδ h1 hfail hnc
    rw [Retry]
    rw [retryLoop_fail_steps f done entropy attempts attempts 0 delay none none []
      le_rfl (Or.inr hδ)
      (fun j hj => by simpa using hnc j hj)
      (fun j hj => by simpa using hfail j hj)]
    have hz : attempts - attempts = 0 := by omega
    rw [hz, retryLoop]
    have hne : ¬ attempts = 0 := by omega
    simp [hne]
  · rfl

/-- Witness for the amended C7: two attempts, both failing with the pair
`(some (10+j), "always")`; the final pair is returned verbatim (a non-nil
result next to a non-nil error, exactly as observed), two sleeps happen;
and a zero-budget call returns `(nil, nil)`. -/
theorem retry_exhaustion_last_pair_witness :
    Retry (fun j => ((some (10 + j) : Option Nat), some "always")) (fun _ => false)
        (fun _ => 5) 2 4 = .ok ⟨some 11, some "always", 2, [4, 4]⟩ ∧
    Retry (fun j => ((some (10 + j) : Option Nat), some "always")) (fun _ => false)
        (fun _ => 5) 0 4 = .ok ⟨none, none, 0, []⟩ := by
  have h := retry_exhaustion_last_pair (fun j => ((some (10 + j) : Option Nat), some "always"))
    (fun _ => false) (fun _ => 5) 2 4
  refine ⟨?_, h.2⟩
  have h1 := h.1 (by norm_num) (by norm_num) (fun j hj => by simp) (fun j hj => rfl)
  rw [h1]
  norm_num [sleepsUpTo]

/-- C8: along any run whose attempts keep failing, each failed attempt
grows the delay by half its jitter draw — a nonnegative amount strictly
below half the pre-update delay (`2·increment < delay`) — so the
per-iteration delay sequence is positive and monotonically non-decreasing;
and no ceiling is enforced: for every bound some run's delay exceeds it. -/
theorem retry_delay_monotone :
    (∀ (entropy : Nat → Nat) (delay : Int) (i : Nat), 0 < delay →
      0 < delaySeq entropy delay i ∧
      delaySeq entropy delay i ≤ delaySeq entropy delay (i + 1) ∧
      0 ≤ delaySeq entropy delay (i + 1) - delaySeq entropy delay i ∧
      2 * (delaySeq entropy delay (i + 1) - delaySeq entropy delay i)
        < delaySeq entropy delay i) ∧
    (∀ C : Int, ∃ (entropy : Nat → Nat) (delay : Int) (i : Nat),
      0 < delay ∧ C < delaySeq entropy delay i) := by
  constructor
  · intro entropy delay i hδ
    have hpos : 0 < delaySeq entropy delay i := delaySeqFrom_pos entropy i 0 delay hδ
    have hstep := delaySeqFrom_succ_right entropy i 0 delay
    have hm0 : 0 ≤ (entropy (0 + i) : Int) % delaySeqFrom entropy 0 delay i :=
      Int.emod_nonneg _ (ne_of_gt hpos)
    have hm1 : (entropy (0 + i) : Int) % delaySeqFrom entropy 0 delay i
        < delaySeqFrom entropy 0 delay i :=
      Int.emod_lt_of_pos _ hpos
    rw [delaySeq] at hpos ⊢
    refine ⟨hpos, ?_, ?_, ?_⟩ <;> rw [delaySeq, hstep] <;> omega
  · intro C
    refine ⟨fun _ => 0, (C.natAbs : Int) + 1, 0, by positivity, ?_⟩
    have hC : C ≤ (C.natAbs : Int) := Int.le_natAbs
    simp only [delaySeq, delaySeqFrom]
    omega

/-- Witness for C8: one concrete backoff step (delay 4, draw 5) satisfies
all per-step bounds, and the bound 100 is exceeded by some run. -/
theorem retry_delay_monotone_witness :
    (0 < delaySeq (fun _ => 5) 4 0 ∧
      delaySeq (fun _ => 5) 4 0 ≤ delaySeq (fun _ => 5) 4 1 ∧
      0 ≤ delaySeq (fun _ => 5) 4 1 - delaySeq (fun _ => 5) 4 0 ∧
      2 * (delaySeq (fun _ => 5) 4 1 - delaySeq (fun _ => 5) 4 0)
        < delaySeq (fun _ => 5) 4 0) ∧
    (∃ (entropy : Nat → Nat) (delay : Int) (i : Nat),
      (0 : Int) < delay ∧ (100 : Int) < delaySeq entropy delay i) :=
  ⟨retry_delay_monotone.1 (fun _ => 5) 4 0 (by norm_num),
   retry_delay_monotone.2 100⟩

/-- C10: with a zero delay, at least one attempt, no cancellation at the
first boundary, and a first invocation that returns an error, the jitter
computation `rand.Int63n(int64(0))` panics, so `Retry` does not return
normally; and with any strictly positive delay the panic branch is
unreachable — every run returns normally. -/
theorem retry_zero_delay_panic {α : Type} :
    (∀ (f : Nat → Option α × Option String) (done : Nat → Bool) (entropy : Nat → Nat)
        (attempts : Nat),
      1 ≤ attempts → done 0 = false → (f 0).2 ≠ none →
      Retry f done entropy attempts 0 = .error ⟨"invalid argument to Int63n"⟩) ∧
    (∀ (f : Nat → Option α × Option String) (done : Nat → Bool) (entropy : Nat → Nat)
        (attempts : Nat) (delay : Int), 0 < delay →
      ∃ o, Retry f done entropy attempts delay = .ok o) := by
  constructor
  · intro f done entropy attempts h1 hd0 hf0
    obtain ⟨m, hm⟩ : ∃ m, attempts = m + 1 := ⟨attempts - 1, by omega⟩
    subst hm
    obtain ⟨e, he⟩ := Option.ne_none_iff_exists'.mp hf0
    have hfk : f 0 = ((f 0).1, some e) := by
      conv_lhs => rw [← Prod.mk.eta (p := f 0)]
      rw [he]
    rw [Retry, retryLoop, hfk]
    simp [hd0, int63n]
  · intro f done entropy attempts delay hδ
    exact retryLoop_no_panic f done entropy attempts 0 delay none none [] hδ

/-- Witness for C10: a concrete zero-delay failing call panics, a concrete
positive-delay call returns normally. -/
theorem retry_zero_delay_panic_witness :
    Retry (fun _ => ((none : Option Nat), some "transient failure")) (fun _ => false)
        (fun _ => 0) 1 0 = .error ⟨"invalid argument to Int63n"⟩ ∧
    ∃ o, Retry (fun _ => ((none : Option Nat), some "transient failure")) (fun _ => false)
        (fun _ => 0) 3 4 = .ok o :=
  ⟨(retry_zero_delay_panic (α := Nat)).1 _ _ _ 1 (by norm_num) rfl (by simp),
   (retry_zero_delay_panic (α := Nat)).2 _ _ _ 3 4 (by norm_num)⟩

end CostModel
